import Mathlib

/-!
Shallow embedding of `ch341-py-smbus.py`: a Python driver that encodes I2C
transactions as CH341 vendor command frames over a USB bulk channel.

The USB device (`self.dev`) is modelled as a scripted byte channel `Chan`:
`writes` scripts the byte counts successive `dev.write` calls report
(an exhausted script reports the full frame length, i.e. a successful write),
`reads` scripts the byte arrays successive `dev.read` calls return
(an exhausted script returns no bytes), and `sent` accumulates the trace of
outbound frames, so theorems can speak about exactly which command frames the
driver put on the channel.

Python `raise ConnectionError(msg)` / `try: ... except ConnectionError:` is
modelled by the result type `Res`, which carries the channel state both on
success and on error (side effects performed before an exception persist,
as in Python).
-/

namespace CH341

/-- Vendor command selectors (class `VendorCmd` in the source); only the I2C
selector is used by the transaction code. -/
def VendorCmd.I2C : Nat := 0xaa

/-- CH341 I2C opcodes and limits (class `I2CCmd` in the source). -/
def I2CCmd.STA : Nat := 0x74

def I2CCmd.STO : Nat := 0x75

def I2CCmd.OUT : Nat := 0x80

def I2CCmd.IN : Nat := 0xc0

def I2CCmd.MAX : Nat := 32

def I2CCmd.SET : Nat := 0x60

def I2CCmd.END : Nat := 0x00

/-- The scripted byte channel standing for the USB device handle. -/
structure Chan where
  writes : List Nat
  reads : List (List Nat)
  sent : List (List Nat)
deriving DecidableEq, Repr

/-- `self.dev.write(EP_OUT, cmd)`: the frame is recorded on the trace and the
scripted count of bytes written is reported (frame length, i.e. success, once
the script is exhausted). -/
def devWrite (frame : List Nat) (c : Chan) : Nat × Chan :=
  match c.writes with
  | [] => (frame.length, { c with sent := c.sent ++ [frame] })
  | n :: rest => (n, { c with writes := rest, sent := c.sent ++ [frame] })

/-- `self.dev.read(EP_IN, maxLen[, timeout])`: the next scripted inbound
response (no bytes once the script is exhausted). The response is whatever the
device produced; the driver inspects its length itself. -/
def devRead (_maxLen : Nat) (c : Chan) : List Nat × Chan :=
  match c.reads with
  | [] => ([], c)
  | r :: rest => (r, { c with reads := rest })

/-- Outcome of a driver call: a Python return value or a raised
`ConnectionError` message, each with the channel state at that point. -/
inductive Res (α : Type) where
  | ok (a : α) (s : Chan)
  | err (e : String) (s : Chan)
deriving DecidableEq, Repr

/-- Sequencing of statements that may raise: a raise aborts the rest of the
`try` body. -/
def andThen {α β : Type} (x : Res α) (f : α → Chan → Res β) : Res β :=
  match x with
  | .ok a s => f a s
  | .err e s => .err e s

/-- Whether the call returned normally (no uncaught exception). -/
def Res.isOk {α : Type} : Res α → Bool
  | .ok _ _ => true
  | .err _ _ => false

/-- The returned value, when the call returned normally. -/
def Res.value? {α : Type} : Res α → Option α
  | .ok a _ => some a
  | .err _ _ => none

/-- The channel state when the call finished. -/
def Res.chan {α : Type} : Res α → Chan
  | .ok _ s => s
  | .err _ s => s

/-- The trace of frames sent to the channel when the call finished. -/
def Res.sent {α : Type} (r : Res α) : List (List Nat) := r.chan.sent

/-- `CH341.__start`: send `[I2C, STA, END]`, raising on a short write. -/
def start (c : Chan) : Res Unit :=
  let cmd := [VendorCmd.I2C, I2CCmd.STA, I2CCmd.END]
  let p := devWrite cmd c
  if p.1 ≠ cmd.length then .err "Failed to issue I2C START Command" p.2
  else .ok () p.2

/-- `CH341.__stop`: send `[I2C, STO, END]`, raising on a short write. -/
def stop (c : Chan) : Res Unit :=
  let cmd := [VendorCmd.I2C, I2CCmd.STO, I2CCmd.END]
  let p := devWrite cmd c
  if p.1 ≠ cmd.length then .err "Failed to issue I2C STOP Command" p.2
  else .ok () p.2

/-- `CH341.__check_ack`: read up to `MAX` bytes; ACK (`true`) iff exactly one
byte came back and its bit 0x80 is clear. Never raises. The guard mirrors
`(len(rval) != 1) or (rval[0] & 0x80)` with Python short-circuiting, so the
first byte is only consulted when exactly one byte is present. -/
def check_ack (c : Chan) : Bool × Chan :=
  let p := devRead I2CCmd.MAX c
  if p.1.length ≠ 1 ∨ p.1.headD 0 &&& 0x80 ≠ 0 then (false, p.2)
  else (true, p.2)

/-- `CH341.__write_bytes`: send `[I2C, OUT] ++ data ++ [END]` then check the
ACK status byte, raising on a short write or a NAK. The source accepts either
a list or a single integer; the single-integer branch appends exactly the one
byte and so builds the same frame as the singleton list, hence call sites
passing one byte use `[b]` here. No length validation is performed. -/
def write_bytes (data : List Nat) (c : Chan) : Res Unit :=
  let cmd := [VendorCmd.I2C, I2CCmd.OUT] ++ data ++ [I2CCmd.END]
  let p := devWrite cmd c
  if p.1 ≠ cmd.length then .err "Failed to issue I2C Send Command" p.2
  else
    let q := check_ack p.2
    if q.1 then .ok () q.2 else .err "I2C ACK not received" q.2

/-- `CH341.__read_bytes`: send `[I2C, IN | length, END]`, then read `length`
bytes, raising on a short write or on a response of the wrong length. No
validation of `length` is performed before the frame is sent. -/
def read_bytes (length : Nat) (c : Chan) : Res (List Nat) :=
  let cmd := [VendorCmd.I2C, I2CCmd.IN ||| length, I2CCmd.END]
  let p := devWrite cmd c
  if p.1 ≠ cmd.length then .err "Failed to issue I2C Receive Command" p.2
  else
    let q := devRead length p.2
    if q.1.length ≠ length then .err "I2C Received an incorrect number of bytes" q.2
    else .ok q.1 q.2

/-- The speed-band selection of `CH341.set_speed`, factored out verbatim from
its `if speed < 100 / elif speed < 400 / elif speed < 750 / else` chain. -/
def speedBand (speed : Nat) : Nat :=
  if speed < 100 then 0
  else if speed < 400 then 1
  else if speed < 750 then 2
  else 3

/-- `CH341.set_speed`: send `[I2C, SET | sbit, END]` where `sbit` is the
speed band, raising on a short write. -/
def set_speed (speed : Nat) (c : Chan) : Res Unit :=
  let sbit := speedBand speed
  let cmd := [VendorCmd.I2C, I2CCmd.SET ||| sbit, I2CCmd.END]
  let p := devWrite cmd c
  if p.1 ≠ cmd.length then .err "Failed to issue I2C Set Speed Command" p.2
  else .ok () p.2

/-- `CH341.detect`: START, address WRITE, STOP inside a `try`; any
`ConnectionError` is printed and collapsed to `False`. Returns a plain
boolean — it can never raise. -/
def detect (addr : Nat) (c : Chan) : Bool × Chan :=
  match andThen (start c) (fun _ c =>
        andThen (write_bytes [addr <<< 1] c) (fun _ c =>
        stop c)) with
  | .ok _ s => (true, s)
  | .err _ s => (false, s)

/-- `CH341.write_byte_data`: START, address WRITE, optional offset WRITE,
data WRITE, STOP inside a `try`; any `ConnectionError` is printed and
swallowed, so the call always returns `None` (unit here). -/
def write_byte_data (addr : Nat) (off : Option Nat) (byte : Nat) (c : Chan) : Res Unit :=
  match andThen (start c) (fun _ c =>
        andThen (write_bytes [addr <<< 1] c) (fun _ c =>
        andThen (match off with
                 | some o => write_bytes [o] c
                 | none => .ok () c) (fun _ c =>
        andThen (write_bytes [byte] c) (fun _ c =>
        stop c)))) with
  | .ok _ s => .ok () s
  | .err _ s => .ok () s

/-- `CH341.write_i2c_block_data`: same script as `write_byte_data` but the
data WRITE carries the whole block; the `except` clause likewise swallows
every `ConnectionError`. -/
def write_i2c_block_data (addr : Nat) (off : Option Nat) (data : List Nat) (c : Chan) : Res Unit :=
  match andThen (start c) (fun _ c =>
        andThen (write_bytes [addr <<< 1] c) (fun _ c =>
        andThen (match off with
                 | some o => write_bytes [o] c
                 | none => .ok () c) (fun _ c =>
        andThen (write_bytes data c) (fun _ c =>
        stop c)))) with
  | .ok _ s => .ok () s
  | .err _ s => .ok () s

/-- `CH341.read_byte_data`: `rval = None`, then START, address WRITE, offset
WRITE, STOP, repeated START, read-address WRITE, one-byte read
(`rval = rval[0]`), STOP, all in one `try`. An exception before the read
leaves `rval = None`; an exception in the final STOP happens after `rval`
holds the byte, so the byte is still returned. `__read_bytes(1)` only
succeeds with a singleton, so `rval[0]` is its head. -/
def read_byte_data (addr : Nat) (off : Nat) (c : Chan) : Res (Option Nat) :=
  match andThen (start c) (fun _ c =>
        andThen (write_bytes [addr <<< 1] c) (fun _ c =>
        andThen (write_bytes [off] c) (fun _ c =>
        andThen (stop c) (fun _ c =>
        andThen (start c) (fun _ c =>
        andThen (write_bytes [(addr <<< 1) ||| 1] c) (fun _ c =>
        read_bytes 1 c)))))) with
  | .err _ s => .ok none s
  | .ok rv s =>
    match stop s with
    | .ok _ s2 => .ok (some (rv.headD 0)) s2
    | .err _ s2 => .ok (some (rv.headD 0)) s2

/-- `CH341.read_i2c_block_data`: same repeated-start script as
`read_byte_data` but reading `length` bytes and returning the whole array;
the `except` clause swallows every `ConnectionError`, returning whatever
`rval` holds at that point. -/
def read_i2c_block_data (addr : Nat) (off : Nat) (length : Nat) (c : Chan) : Res (Option (List Nat)) :=
  match andThen (start c) (fun _ c =>
        andThen (write_bytes [addr <<< 1] c) (fun _ c =>
        andThen (write_bytes [off] c) (fun _ c =>
        andThen (stop c) (fun _ c =>
        andThen (start c) (fun _ c =>
        andThen (write_bytes [(addr <<< 1) ||| 1] c) (fun _ c =>
        read_bytes length c)))))) with
  | .err _ s => .ok none s
  | .ok rv s =>
    match stop s with
    | .ok _ s2 => .ok (some rv) s2
    | .err _ s2 => .ok (some rv) s2

end CH341

/-- The loop body of `scan`: probe addresses `i, i+1, ...` for `fuel` steps,
appending each responding address to `acc` (`for i in range(250): if
i2c.detect(i): results += [i]`). -/
def scanFrom (fuel : Nat) (i : Nat) (c : CH341.Chan) (acc : List Nat) : List Nat × CH341.Chan :=
  match fuel with
  | 0 => (acc, c)
  | f + 1 =>
    let p := CH341.detect i c
    scanFrom f (i + 1) p.2 (if p.1 then acc ++ [i] else acc)

/-- `scan`: iterate `detect` over `range(250)` collecting the responding
addresses. The source prints the collected `results` list; the list it builds
is returned here so theorems can speak about it. -/
def scan (c : CH341.Chan) : List Nat × CH341.Chan := scanFrom 250 0 c []

/-- The channel state after the first `i` probes of a scan that started on
channel `c`. -/
def chanBefore (c : CH341.Chan) : Nat → CH341.Chan
  | 0 => c
  | i + 1 => (CH341.detect i (chanBefore c i)).2

/-- Whether the probe of address `i` during a scan started on channel `c`
reported a present device. -/
def pres (c : CH341.Chan) (i : Nat) : Bool := (CH341.detect i (chanBefore c i)).1

open CH341

/-- C7: `check_ack` returns `true` iff the inbound transfer returns exactly
one byte whose bit 0x80 is clear; every other outcome — no bytes at all, a
multi-byte response, or a byte with 0x80 set — yields `false` (NAK) rather
than raising. -/
theorem c7_check_ack_iff (w : List Nat) (r : List Nat) (rest : List (List Nat))
    (s0 : List (List Nat)) :
    ((check_ack ⟨w, r :: rest, s0⟩).1 = true ↔ r.length = 1 ∧ r.headD 0 &&& 0x80 = 0) ∧
    (check_ack ⟨w, [], s0⟩).1 = false := by
  constructor
  · simp only [check_ack, devRead]
    split_ifs with h
    · simp only [Bool.false_eq_true, false_iff]
      tauto
    · push_neg at h
      exact iff_of_true rfl ⟨h.1, h.2⟩
  · simp [check_ack, devRead]

/-- C8: the speed-to-band mapping of `set_speed` is total and monotonic with
the fixed thresholds — below 100 kHz is band 0, 100–399 is band 1, 400–749 is
band 2, 750 and above is band 3 — and the frame sent is selector, SET opcode
bitwise-ORed with the band, END. -/
theorem c8_speed_bands (k j : Nat) (rs : List (List Nat)) (s0 : List (List Nat))
    (h : k ≤ j) :
    speedBand k ≤ speedBand j ∧
    (k < 100 → speedBand k = 0) ∧
    (100 ≤ k → k < 400 → speedBand k = 1) ∧
    (400 ≤ k → k < 750 → speedBand k = 2) ∧
    (750 ≤ k → speedBand k = 3) ∧
    set_speed k ⟨[], rs, s0⟩ =
      .ok () ⟨[], rs, s0 ++ [[VendorCmd.I2C, I2CCmd.SET ||| speedBand k, I2CCmd.END]]⟩ := by
  refine ⟨?_, ?_, ?_, ?_, ?_, ?_⟩
  · unfold speedBand; split_ifs <;> omega
  · intro hk; unfold speedBand; split_ifs
    omega
  · intro hk hk2; unfold speedBand; split_ifs <;> omega
  · intro hk hk2; unfold speedBand; split_ifs <;> omega
  · intro hk; unfold speedBand; split_ifs <;> omega
  · simp [set_speed, devWrite]

/-- C8 witness: 50 kHz selects band 0 and 1000 kHz selects band 3. -/
theorem c8_speed_bands_witness : speedBand 50 = 0 ∧ speedBand 1000 = 3 :=
  ⟨(c8_speed_bands 50 1000 [] [] (by decide)).2.1 (by decide),
   (c8_speed_bands 1000 1000 [] [] (by decide)).2.2.2.2.1 (by decide)⟩

/-- C10: for every read length up to 32, the read-request opcode `IN | length`
keeps the top two bits equal to 0xc0 and carries the length in its low six
bits, so the length is exactly recoverable and the packing is injective over
this range. -/
theorem c10_in_packing (l : Nat) (h : l ≤ 32) :
    (I2CCmd.IN ||| l) &&& 0xc0 = 0xc0 ∧ (I2CCmd.IN ||| l) &&& 0x3f = l ∧
    ∀ j, j ≤ 32 → I2CCmd.IN ||| l = I2CCmd.IN ||| j → l = j := by
  have key : ∀ m : Nat, m ≤ 32 →
      (I2CCmd.IN ||| m) &&& 0xc0 = 0xc0 ∧ (I2CCmd.IN ||| m) &&& 0x3f = m := by
    intro m hm
    interval_cases m <;> exact ⟨by decide, by decide⟩
  refine ⟨(key l h).1, (key l h).2, ?_⟩
  intro j hj heq
  have h1 := (key l h).2
  have h2 := (key j hj).2
  rw [heq] at h1
  omega

/-- C10 witness: at the maximum length 32 the opcode byte is 0xe0, its marker
bits are intact and the length is recoverable. -/
theorem c10_in_packing_witness :
    (I2CCmd.IN ||| 32) &&& 0xc0 = 0xc0 ∧ (I2CCmd.IN ||| 32) &&& 0x3f = 32 :=
  ⟨(c10_in_packing 32 (by decide)).1, (c10_in_packing 32 (by decide)).2.1⟩

/-- C1 counterexample: a 33-byte payload is not rejected — `write_bytes`
sends the oversized frame to the channel (and, with the device acknowledging,
completes normally), so no `PayloadTooLarge`-style failure occurs before I/O
for payloads longer than 32 bytes. -/
theorem c1_counterexample :
    (write_bytes (List.replicate 33 0) ⟨[], [[0x00]], []⟩).value? = some () ∧
    (write_bytes (List.replicate 33 0) ⟨[], [[0x00]], []⟩).sent =
      [[VendorCmd.I2C, I2CCmd.OUT] ++ List.replicate 33 0 ++ [I2CCmd.END]] := by
  exact ⟨by decide, by decide⟩

/-- C1 (amended): for a payload of any length whatsoever — 0 and lengths
beyond 32 included — the write-bytes encoding sends exactly one frame of
length `payload.length + 3` whose first byte is the I2C selector 0xaa, whose
second byte is the OUT opcode, whose last byte is the END marker, and whose
middle bytes are the payload in order; no length validation is performed and
no `PayloadTooLarge` failure exists. -/
theorem c1_write_frame_shape (data : List Nat) (c : Chan) :
    (write_bytes data c).sent =
      c.sent ++ [[VendorCmd.I2C, I2CCmd.OUT] ++ data ++ [I2CCmd.END]] ∧
    ([VendorCmd.I2C, I2CCmd.OUT] ++ data ++ [I2CCmd.END]).length = data.length + 3 ∧
    ([VendorCmd.I2C, I2CCmd.OUT] ++ data ++ [I2CCmd.END]).headD 0 = 0xaa ∧
    (([VendorCmd.I2C, I2CCmd.OUT] ++ data ++ [I2CCmd.END]).drop 1).headD 0 = I2CCmd.OUT ∧
    ([VendorCmd.I2C, I2CCmd.OUT] ++ data ++ [I2CCmd.END]).getLast? = some I2CCmd.END ∧
    (([VendorCmd.I2C, I2CCmd.OUT] ++ data ++ [I2CCmd.END]).drop 2).dropLast = data := by
  obtain ⟨w, r, s⟩ := c
  refine ⟨?_, by simp [VendorCmd.I2C, I2CCmd.OUT, I2CCmd.END],
          by simp [VendorCmd.I2C], by simp [I2CCmd.OUT], ?_, ?_⟩
  · cases w <;> cases r <;>
      simp [write_bytes, devWrite, check_ack, devRead, Res.sent, Res.chan] <;>
      split_ifs <;> simp [Res.sent, Res.chan]
  · rw [show [VendorCmd.I2C, I2CCmd.OUT] ++ data ++ [I2CCmd.END] =
        ([VendorCmd.I2C, I2CCmd.OUT] ++ data) ++ [I2CCmd.END] by simp]
    exact List.getLast?_concat _
  · simp [List.dropLast_concat]

/-- Helper: on a channel whose next inbound response is `r`, `check_ack`
consumes it and reports ACK exactly when `r` is a single byte with bit 0x80
clear. -/
theorem check_ack_eq (w : List Nat) (r : List Nat) (rest : List (List Nat))
    (s : List (List Nat)) :
    check_ack ⟨w, r :: rest, s⟩ =
      ((if r.length ≠ 1 ∨ r.headD 0 &&& 0x80 ≠ 0 then false else true), ⟨w, rest, s⟩) := by
  simp only [check_ack, devRead]
  split_ifs <;> rfl

/-- C2 counterexample: with the address WRITE NAKed, `write_byte_data` sends
only the START and address frames — no STOP frame ever follows the abort, so
the bus is not released — and the call returns normally instead of surfacing
a `BusNotAcknowledged` failure. -/
theorem c2_counterexample :
    (write_byte_data 0x50 (some 0x10) 0x42 ⟨[], [[0x80]], []⟩).value? = some () ∧
    (write_byte_data 0x50 (some 0x10) 0x42 ⟨[], [[0x80]], []⟩).sent =
      [[VendorCmd.I2C, I2CCmd.STA, I2CCmd.END],
       [VendorCmd.I2C, I2CCmd.OUT, 0xa0, I2CCmd.END]] ∧
    [VendorCmd.I2C, I2CCmd.STO, I2CCmd.END] ∉
      (write_byte_data 0x50 (some 0x10) 0x42 ⟨[], [[0x80]], []⟩).sent := by
  exact ⟨by decide, by decide, by decide⟩

/-- C2 (amended): when the ACK check of the address WRITE phase returns NAK,
each of the four operations stops issuing phases — nothing is sent to the
channel after the failing WRITE — but no STOP is sent on the abort path, the
error carries only the generic message with no phase identification, and it
is caught and printed inside the operation, which returns normally (`None`
for the reads, unit for the writes) instead of propagating a
`BusNotAcknowledged` failure. -/
theorem c2_nak_aborts (addr byte off len : Nat) (data : List Nat) (r : List Nat)
    (rest : List (List Nat)) (s0 : List (List Nat))
    (h : ¬(r.length = 1 ∧ r.headD 0 &&& 0x80 = 0)) :
    write_byte_data addr (some off) byte ⟨[], r :: rest, s0⟩ =
      .ok () ⟨[], rest, s0 ++ [[VendorCmd.I2C, I2CCmd.STA, I2CCmd.END],
                               [VendorCmd.I2C, I2CCmd.OUT, addr <<< 1, I2CCmd.END]]⟩ ∧
    write_i2c_block_data addr (some off) data ⟨[], r :: rest, s0⟩ =
      .ok () ⟨[], rest, s0 ++ [[VendorCmd.I2C, I2CCmd.STA, I2CCmd.END],
                               [VendorCmd.I2C, I2CCmd.OUT, addr <<< 1, I2CCmd.END]]⟩ ∧
    read_byte_data addr off ⟨[], r :: rest, s0⟩ =
      .ok none ⟨[], rest, s0 ++ [[VendorCmd.I2C, I2CCmd.STA, I2CCmd.END],
                                 [VendorCmd.I2C, I2CCmd.OUT, addr <<< 1, I2CCmd.END]]⟩ ∧
    read_i2c_block_data addr off len ⟨[], r :: rest, s0⟩ =
      .ok none ⟨[], rest, s0 ++ [[VendorCmd.I2C, I2CCmd.STA, I2CCmd.END],
                                 [VendorCmd.I2C, I2CCmd.OUT, addr <<< 1, I2CCmd.END]]⟩ := by
  have hcond : r.length ≠ 1 ∨ r.headD 0 &&& 0x80 ≠ 0 := by tauto
  have hca : ∀ w : List Nat, ∀ rest2 : List (List Nat), ∀ s : List (List Nat),
      check_ack ⟨w, r :: rest2, s⟩ = (false, ⟨w, rest2, s⟩) := by
    intro w rest2 s
    rw [check_ack_eq, if_pos hcond]
  refine ⟨?_, ?_, ?_, ?_⟩ <;>
    simp [write_byte_data, write_i2c_block_data, read_byte_data, read_i2c_block_data,
          start, write_bytes, devWrite, andThen, hca]

/-- C2 witness: the amended abort behaviour at address 0x50, offset 0x10,
data byte 0x42, with the NAK status byte 0x80. -/
theorem c2_nak_aborts_witness :
    write_byte_data 0x50 (some 0x10) 0x42 ⟨[], [[0x80]], []⟩ =
      .ok () ⟨[], [], [[VendorCmd.I2C, I2CCmd.STA, I2CCmd.END],
                       [VendorCmd.I2C, I2CCmd.OUT, 0x50 <<< 1, I2CCmd.END]]⟩ :=
  (c2_nak_aborts 0x50 0x42 0x10 1 [] [0x80] [] [] (by decide)).1

/-- C3 counterexample: `read_i2c_block_data` called with length 0 issues the
full eight-frame channel sequence — including the read request `IN | 0` — and
returns an empty block, so no `InvalidReadLength` failure occurs and channel
I/O does happen. -/
theorem c3_counterexample :
    (read_i2c_block_data 0x50 0x10 0 ⟨[], [[0], [0], [0], []], []⟩).value? =
      some (some []) ∧
    (read_i2c_block_data 0x50 0x10 0 ⟨[], [[0], [0], [0], []], []⟩).sent =
      [[VendorCmd.I2C, I2CCmd.STA, I2CCmd.END],
       [VendorCmd.I2C, I2CCmd.OUT, 0xa0, I2CCmd.END],
       [VendorCmd.I2C, I2CCmd.OUT, 0x10, I2CCmd.END],
       [VendorCmd.I2C, I2CCmd.STO, I2CCmd.END],
       [VendorCmd.I2C, I2CCmd.STA, I2CCmd.END],
       [VendorCmd.I2C, I2CCmd.OUT, 0xa1, I2CCmd.END],
       [VendorCmd.I2C, I2CCmd.IN ||| 0, I2CCmd.END],
       [VendorCmd.I2C, I2CCmd.STO, I2CCmd.END]] := by
  exact ⟨by decide, by decide⟩

/-- C3 (amended): `read_i2c_block_data` performs no length validation at all:
for every length — 0 and lengths beyond 32 included — the addressing phases
and the read request `IN | length` are sent to the channel, and a device
response of exactly that many bytes completes the call successfully; no
`InvalidReadLength` failure exists. -/
theorem c3_no_length_check (addr off l : Nat) (bs : List Nat) (s0 : List (List Nat))
    (h : bs.length = l) :
    read_i2c_block_data addr off l ⟨[], [[0], [0], [0], bs], s0⟩ =
      .ok (some bs) ⟨[], [], s0 ++
        [[VendorCmd.I2C, I2CCmd.STA, I2CCmd.END],
         [VendorCmd.I2C, I2CCmd.OUT, addr <<< 1, I2CCmd.END],
         [VendorCmd.I2C, I2CCmd.OUT, off, I2CCmd.END],
         [VendorCmd.I2C, I2CCmd.STO, I2CCmd.END],
         [VendorCmd.I2C, I2CCmd.STA, I2CCmd.END],
         [VendorCmd.I2C, I2CCmd.OUT, (addr <<< 1) ||| 1, I2CCmd.END],
         [VendorCmd.I2C, I2CCmd.IN ||| l, I2CCmd.END],
         [VendorCmd.I2C, I2CCmd.STO, I2CCmd.END]]⟩ := by
  subst h
  simp [read_i2c_block_data, start, stop, write_bytes, read_bytes, check_ack,
        devWrite, devRead, andThen]

/-- C3 witness: the amended behaviour at length 0 — the whole sequence is
sent and an empty block is returned. -/
theorem c3_no_length_check_witness :
    read_i2c_block_data 0x50 0x10 0 ⟨[], [[0], [0], [0], []], []⟩ =
      .ok (some []) ⟨[], [],
        [[VendorCmd.I2C, I2CCmd.STA, I2CCmd.END],
         [VendorCmd.I2C, I2CCmd.OUT, 0x50 <<< 1, I2CCmd.END],
         [VendorCmd.I2C, I2CCmd.OUT, 0x10, I2CCmd.END],
         [VendorCmd.I2C, I2CCmd.STO, I2CCmd.END],
         [VendorCmd.I2C, I2CCmd.STA, I2CCmd.END],
         [VendorCmd.I2C, I2CCmd.OUT, (0x50 <<< 1) ||| 1, I2CCmd.END],
         [VendorCmd.I2C, I2CCmd.IN ||| 0, I2CCmd.END],
         [VendorCmd.I2C, I2CCmd.STO, I2CCmd.END]]⟩ := by
  have := c3_no_length_check 0x50 0x10 0 [] [] (by decide)
  simpa using this

/-- C4 counterexample: when the address WRITE is NAKed, `read_byte_data`
returns normally with the null result `None` — the failure is swallowed
inside the operation instead of being surfaced to the caller. -/
theorem c4_counterexample :
    (read_byte_data 0x50 0x10 ⟨[], [[0x80]], []⟩).value? = some none ∧
    (read_byte_data 0x50 0x10 ⟨[], [[0x80]], []⟩).isOk = true := by
  exact ⟨by decide, by decide⟩

/-- C4 (amended): none of the public operations ever propagates a failure to
its caller — each one wraps its whole phase script in a handler that catches
every `ConnectionError`, prints it, and returns normally (`None` for the
reads, `None`/unit for the writes), so on every channel whatsoever the call
finishes without an uncaught error. -/
theorem c4_ops_never_raise (addr byte off len : Nat) (offo : Option Nat)
    (data : List Nat) (c : Chan) :
    (write_byte_data addr offo byte c).isOk = true ∧
    (write_i2c_block_data addr offo data c).isOk = true ∧
    (read_byte_data addr off c).isOk = true ∧
    (read_i2c_block_data addr off len c).isOk = true := by
  refine ⟨?_, ?_, ?_, ?_⟩
  · unfold write_byte_data
    split <;> rfl
  · unfold write_i2c_block_data
    split <;> rfl
  · unfold read_byte_data
    split
    · rfl
    · split <;> rfl
  · unfold read_i2c_block_data
    split
    · rfl
    · split <;> rfl

/-- C5 counterexample: a transport fault during the probe does not propagate —
a short write on the START frame makes `detect` report `false` (first
conjunct); moreover presence is not equivalent to the address WRITE being
acknowledged: with the address ACKed but the STOP frame short-written,
`detect` still reports `false` (second conjunct). -/
theorem c5_counterexample :
    (detect 0x50 ⟨[0], [], []⟩).1 = false ∧
    (detect 0x50 ⟨[3, 4, 0], [[0]], []⟩).1 = false := by
  exact ⟨by decide, by decide⟩

/-- C5 (amended): `detect` can never surface an error — on a channel whose
outbound transfers succeed it returns `true` exactly when the single status
byte acknowledges the address WRITE, and any `ConnectionError`, a transport
fault such as a short write included, collapses to `presence = false` (here:
a short write on the very first frame). -/
theorem c5_detect_collapses (addr : Nat) (r : List Nat) (rest s0 rs : List (List Nat))
    (w : Nat) (ws : List Nat) (hw : w ≠ 3) :
    ((detect addr ⟨[], r :: rest, s0⟩).1 = true ↔
       r.length = 1 ∧ r.headD 0 &&& 0x80 = 0) ∧
    (detect addr ⟨w :: ws, rs, s0⟩).1 = false := by
  constructor
  · by_cases hok : r.length = 1 ∧ r.headD 0 &&& 0x80 = 0
    · refine iff_of_true ?_ hok
      have hca : check_ack ⟨[], r :: rest, s0 ++
          [[VendorCmd.I2C, I2CCmd.STA, I2CCmd.END],
           [VendorCmd.I2C, I2CCmd.OUT, addr <<< 1, I2CCmd.END]]⟩ =
          (true, ⟨[], rest, s0 ++
          [[VendorCmd.I2C, I2CCmd.STA, I2CCmd.END],
           [VendorCmd.I2C, I2CCmd.OUT, addr <<< 1, I2CCmd.END]]⟩) := by
        rw [check_ack_eq, if_neg]
        push_neg
        exact hok
      simp [detect, start, stop, write_bytes, devWrite, andThen, hca]
    · refine iff_of_false ?_ hok
      have hcond : r.length ≠ 1 ∨ r.headD 0 &&& 0x80 ≠ 0 := by tauto
      have hca : check_ack ⟨[], r :: rest, s0 ++
          [[VendorCmd.I2C, I2CCmd.STA, I2CCmd.END],
           [VendorCmd.I2C, I2CCmd.OUT, addr <<< 1, I2CCmd.END]]⟩ =
          (false, ⟨[], rest, s0 ++
          [[VendorCmd.I2C, I2CCmd.STA, I2CCmd.END],
           [VendorCmd.I2C, I2CCmd.OUT, addr <<< 1, I2CCmd.END]]⟩) := by
        rw [check_ack_eq, if_pos hcond]
      simp [detect, start, stop, write_bytes, devWrite, andThen, hca]
  · simp [detect, start, devWrite, andThen, hw]

/-- C5 witness: with a well-behaved transport and the ACK status byte 0x00,
`detect 0x50` reports presence; with the NAK status byte 0x80 it does not;
with a short write (0 of 3 bytes) on the START frame it reports `false`
rather than an error. -/
theorem c5_detect_collapses_witness :
    (detect 0x50 ⟨[], [[0x00]], []⟩).1 = true ∧
    (detect 0x50 ⟨[], [[0x80]], []⟩).1 = false ∧
    (detect 0x50 ⟨[0], [], []⟩).1 = false := by
  refine ⟨?_, ?_, ?_⟩
  · exact ((c5_detect_collapses 0x50 [0x00] [] [] [] 0 [] (by decide)).1).mpr (by decide)
  · have h := ((c5_detect_collapses 0x50 [0x80] [] [] [] 0 [] (by decide)).1)
    simp only [show ¬([0x80].length = 1 ∧ [0x80].headD 0 &&& 0x80 = 0) by decide] at h
    simpa using h
  · exact (c5_detect_collapses 0x50 [] [] [] [] 0 [] (by decide)).2

/-- C6: on a channel that acknowledges every WRITE and returns the byte `b`,
`read_byte_data` sends exactly the frames for START, WRITE(addr<<1),
WRITE(off), STOP, START, WRITE(addr<<1 | 1), READ(1), STOP, in that order,
and returns the single byte read. -/
theorem c6_read_byte_data_phases (addr off b : Nat) (s0 : List (List Nat)) :
    read_byte_data addr off ⟨[], [[0], [0], [0], [b]], s0⟩ =
      .ok (some b) ⟨[], [], s0 ++
        [[VendorCmd.I2C, I2CCmd.STA, I2CCmd.END],
         [VendorCmd.I2C, I2CCmd.OUT, addr <<< 1, I2CCmd.END],
         [VendorCmd.I2C, I2CCmd.OUT, off, I2CCmd.END],
         [VendorCmd.I2C, I2CCmd.STO, I2CCmd.END],
         [VendorCmd.I2C, I2CCmd.STA, I2CCmd.END],
         [VendorCmd.I2C, I2CCmd.OUT, (addr <<< 1) ||| 1, I2CCmd.END],
         [VendorCmd.I2C, I2CCmd.IN ||| 1, I2CCmd.END],
         [VendorCmd.I2C, I2CCmd.STO, I2CCmd.END]]⟩ := by
  simp [read_byte_data, start, stop, write_bytes, read_bytes, check_ack,
        devWrite, devRead, andThen]

/-- Helper: scanning `f` candidate addresses upward from `i`, with the channel
in the state reached after the first `i` probes, appends to `acc` exactly
those candidates among `i, ..., i + f - 1` whose probe reported presence. -/
theorem scanFrom_eq (c : CH341.Chan) (f : Nat) :
    ∀ i acc, (scanFrom f i (chanBefore c i) acc).1 =
      acc ++ (List.range' i f).filter (pres c) := by
  induction f with
  | zero =>
    intro i acc
    simp [scanFrom]
  | succ f ih =>
    intro i acc
    have h1 : (CH341.detect i (chanBefore c i)).2 = chanBefore c (i + 1) := rfl
    have h2 : (CH341.detect i (chanBefore c i)).1 = pres c i := rfl
    rw [List.range'_succ]
    simp only [scanFrom]
    rw [h1, h2]
    cases hp : pres c i with
    | true =>
      rw [if_pos rfl, ih (i + 1) (acc ++ [i]), List.filter_cons_of_pos (by simp [hp])]
      simp
    | false =>
      rw [if_neg (by simp), ih (i + 1) acc, List.filter_cons_of_neg (by simp [hp])]

/-- C9: `scan` iterates the candidate addresses 0 through 249 in order,
probing each one once, and collects exactly those whose probe reported
presence, in strictly ascending order (hence without duplicates). -/
theorem c9_scan_spec (c : CH341.Chan) :
    (scan c).1 = (List.range 250).filter (pres c) ∧
    List.Pairwise (fun a b : Nat => a < b) (scan c).1 ∧
    ∀ i, i ∈ (scan c).1 ↔ i < 250 ∧ pres c i = true := by
  have h0 : (scan c).1 = (List.range 250).filter (pres c) := by
    have h := scanFrom_eq c 250 0 []
    simpa [scan, chanBefore, List.range_eq_range'] using h
  refine ⟨h0, ?_, ?_⟩
  · rw [h0]
    exact (List.pairwise_lt_range 250).filter _
  · intro i
    rw [h0]
    simp [List.mem_filter, List.mem_range, and_comm]
